import Mathlib

/-!
Verification of the incremental anomaly-detection worker
(`worker_procesamiento.py`, `detect_from_sql.py`, `write_training_data_to_sql.py`).

The embedding models:
* pandas cell values (`Val`): finite rationals, the two infinities, NaN/null,
  booleans, strings and datetimes (datetimes are modelled as naturals);
* long-form rows of the `datos_proceso` input table (`LongRow`);
* the upstream query `get_new_data_from_sql` (filter `datetime > since`,
  ordered by `datetime, variable_name`);
* `convert_long_to_wide` = `pivot_table(index='datetime',
  columns='variable_name', values='value', aggfunc='first')`, including
  pandas' `dropna=True` behaviour (groupby `first` keeps the first non-null
  value of each `(datetime, variable)` pair; pairs whose values are all null
  are dropped before unstacking, so all-null rows/columns disappear);
* the sanitization steps of `process_new_anomalies` (bool→int conversion,
  `replace(inf, nan)`, `fillna(0)`, `clip(0, 999.99)`), the column
  selection before the write, and the cycle control flow;
* `AnomalyDetectionWorker.check_and_process` and the watermark update
  (`MAX(datetime)` over the whole input table, taken only if strictly
  greater than the current watermark), with the input table passed as
  explicit snapshots (one per SQL round-trip) so that concurrent inserts
  between the poll and the re-query can be expressed;
* the `run` loop's try/except-KeyboardInterrupt/finally structure.

The Prophet detector is external to the repository and is modelled as an
opaque `Detector` value; a detection failure (Python exception) is an
`Except.error`.
-/

/-- A pandas cell value: a finite float (as a rational), ±infinity, NaN
(which doubles as SQL NULL / Python None), a boolean, a string, or a
datetime (modelled as a natural number). -/
inductive Val where
  | num (q : ℚ)
  | posInf
  | negInf
  | nan
  | bool (b : Bool)
  | str (s : String)
  | dt (t : ℕ)
deriving DecidableEq, Repr

/-- `pd.isna`: only NaN (None/NULL) is missing. -/
def Val.isNA : Val → Bool
  | .nan => true
  | _ => false

/-- One row of the long-format input table `datos_proceso`:
`(datetime, variable_name, value, source_file)`. -/
structure LongRow where
  datetime : ℕ
  variable_name : String
  value : Val
  source_file : String
deriving DecidableEq, Repr

/-- Lexicographic comparison of character lists (kernel-reducible stand-in
for the SQL collation used by `ORDER BY variable_name`). -/
def charsLE : List Char → List Char → Bool
  | [], _ => true
  | _ :: _, [] => false
  | a :: as, b :: bs => if a < b then true else if b < a then false else charsLE as bs

/-- String comparison used for `ORDER BY variable_name`. -/
def strLE (a b : String) : Bool := charsLE a.data b.data

/-- Row order of `ORDER BY datetime, variable_name`. -/
def rowLE (a b : LongRow) : Prop :=
  a.datetime < b.datetime ∨ (a.datetime = b.datetime ∧ strLE a.variable_name b.variable_name = true)

instance : DecidableRel rowLE := fun a b => by
  unfold rowLE
  exact inferInstance

/-- `get_new_data_from_sql`: `SELECT datetime, variable_name, value,
source_file FROM datos_proceso WHERE datetime > since ORDER BY datetime,
variable_name`.  The rows of the table are given as a list in storage
order; the empty result models the function returning `None`. -/
def get_new_data_from_sql (table : List LongRow) (since : ℕ) : List LongRow :=
  List.insertionSort rowLE (table.filter (fun r => since < r.datetime))

/-- The values of one `(datetime, variable_name)` group, in input order
(pandas `groupby` preserves the within-group order of the frame). -/
def pairValues (df : List LongRow) (t : ℕ) (v : String) : List Val :=
  (df.filter (fun r => r.datetime = t ∧ r.variable_name = v)).map LongRow.value

/-- pandas `groupby(...).first()` / `aggfunc='first'`: the first
**non-null** value of the group; NaN when every value is null. -/
def firstNonNull : List Val → Val
  | [] => Val.nan
  | v :: vs => if v.isNA then firstNonNull vs else v

/-- The aggregated value of one `(datetime, variable_name)` cell. -/
def aggFirst (df : List LongRow) (t : ℕ) (v : String) : Val :=
  firstNonNull (pairValues df t v)

/-- The distinct `(datetime, variable_name)` keys appearing in the frame
(the groupby keys of the pivot). -/
def pairKeys (df : List LongRow) : List (ℕ × String) :=
  (df.map (fun r => (r.datetime, r.variable_name))).dedup

/-- The keys that survive `pivot_table`'s `dropna=True`
(`agged.dropna(how='all')`): keys whose aggregated value is non-null. -/
def keptPairs (df : List LongRow) : List (ℕ × String) :=
  (pairKeys df).filter (fun p => !(aggFirst df p.1 p.2).isNA)

/-- The wide frame produced by `convert_long_to_wide`: the `DATETIME`
column (`timestamps`), the variable columns (`columns`), and the filled
cells; absent cells are NaN holes introduced by the unstack. -/
structure WideTable where
  timestamps : List ℕ
  columns : List String
  cells : List ((ℕ × String) × Val)
deriving DecidableEq, Repr

/-- Reading one cell of the wide frame (NaN for the unstack holes). -/
def WideTable.cell (w : WideTable) (t : ℕ) (v : String) : Val :=
  match w.cells.find? (fun c => c.1 = (t, v)) with
  | some c => c.2
  | none => Val.nan

/-- `convert_long_to_wide` (`worker_procesamiento.py` and the identical
inline pivot of `read_data_from_sql` in `detect_from_sql.py`):
`pivot_table(index='datetime', columns='variable_name', values='value',
aggfunc='first')` followed by `reset_index()` and the rename to
`DATETIME`. -/
def convert_long_to_wide (df : List LongRow) : WideTable :=
  { timestamps := ((keptPairs df).map Prod.fst).dedup
    columns := ((keptPairs df).map Prod.snd).dedup
    cells := (keptPairs df).map (fun p => (p, aggFirst df p.1 p.2)) }

/-- `transform_data_to_long_format` (`write_training_data_to_sql.py`):
`melt` the wide frame (column-major, as pandas does), attach the source
file, and `dropna(subset=['value'])`. -/
def transform_data_to_long_format (w : WideTable) (src : String) : List LongRow :=
  (w.columns.flatMap (fun v => w.timestamps.map (fun t => LongRow.mk t v (w.cell t v) src))).filter
    (fun r => !r.value.isNA)

/-- A detection-result frame, column-oriented: the list of columns in
frame order, each a name paired with its data. -/
structure ResultFrame where
  columns : List (String × List Val)
deriving DecidableEq, Repr

/-- The column names of the frame (`results.columns`). -/
def colNames (f : ResultFrame) : List String := f.columns.map Prod.fst

/-- Column lookup (`results[name]`); `none` models a `KeyError`. -/
def colData (f : ResultFrame) (name : String) : Option (List Val) :=
  (f.columns.find? (fun c => c.1 = name)).map Prod.snd

/-- `len(results)`: the number of rows of the frame. -/
def ResultFrame.nrows (f : ResultFrame) : ℕ :=
  match f.columns with
  | [] => 0
  | c :: _ => c.2.length

/-- Truncation toward zero of a rational, as NumPy's float→int cast in
`astype(int)` does (written on `num`/`den` so that the kernel can
evaluate it). -/
def truncQ (q : ℚ) : ℤ :=
  if 0 ≤ q.num then (q.num.toNat / q.den : ℕ) else -((-q.num).toNat / q.den : ℕ)

/-- `astype(int)` on one cell: booleans map to 0/1, finite numbers
truncate toward zero, anything else (NaN, ±inf, strings, datetimes)
raises. -/
def astInt : Val → Except Unit Val
  | .bool b => .ok (.num (if b then 1 else 0))
  | .num q => .ok (.num (truncQ q))
  | _ => .error ()

/-- A fallible elementwise map over a column (`Series.astype`). -/
def mapValsE (g : Val → Except Unit Val) : List Val → Except Unit (List Val)
  | [] => .ok []
  | v :: vs =>
    match g v with
    | .error e => .error e
    | .ok w =>
      match mapValsE g vs with
      | .error e => .error e
      | .ok ws => .ok (w :: ws)

/-- The net effect, on one column, of the loop
`for col in ['outside_interval', 'high_residual', 'is_anomaly']:
  if col in results.columns: results[col] = results[col].astype(int)` —
a column whose name is one of the three flags is cast to int, every
other column is left alone.  (The three names are distinct and each
in-place update touches exactly the columns bearing its name, so the
loop acts independently on each column.) -/
def flagStepVal (n : String) (d : List Val) : Except Unit (List Val) :=
  if n = "outside_interval" ∨ n = "high_residual" ∨ n = "is_anomaly" then mapValsE astInt d
  else .ok d

/-- The flag-conversion pass over all columns. -/
def flagCols : List (String × List Val) → Except Unit (List (String × List Val))
  | [] => .ok []
  | c :: cs =>
    match flagStepVal c.1 c.2 with
    | .error e => .error e
    | .ok d =>
      match flagCols cs with
      | .error e => .error e
      | .ok ds => .ok ((c.1, d) :: ds)

/-- The boolean→{0,1} conversion step of `process_new_anomalies`
(an `Except.error` models the `astype` exception landing in the
surrounding `try`). -/
def astIntFlags (f : ResultFrame) : Except Unit ResultFrame :=
  match flagCols f.columns with
  | .error e => .error e
  | .ok cs => .ok ⟨cs⟩

/-- `Series.replace([np.inf, -np.inf], np.nan)` on one cell. -/
def replaceInfNan : Val → Val
  | .posInf => .nan
  | .negInf => .nan
  | v => v

/-- `Series.fillna(0)` on one cell. -/
def fillna0 : Val → Val
  | .nan => .num 0
  | v => v

/-- `Series.clip(lower=0, upper=999.99)` on one cell: finite values
saturate into the closed interval, `+inf` becomes the upper bound,
`-inf` the lower bound, NaN is left as NaN. -/
def clipVal (lo hi : ℚ) : Val → Val
  | .num q => .num (if q < lo then lo else if hi < q then hi else q)
  | .posInf => .num hi
  | .negInf => .num lo
  | v => v

/-- `results['anomaly_score'].fillna(0).clip(lower=0, upper=999.99)`
on one cell. -/
def sanitizeScoreVal (v : Val) : Val := clipVal 0 (99999/100) (fillna0 v)

/-- `results['prediction_error_pct'].replace([inf, -inf], nan)
.fillna(0).clip(lower=0, upper=999.99)` on one cell. -/
def sanitizePctVal (v : Val) : Val := clipVal 0 (99999/100) (fillna0 (replaceInfNan v))

/-- The net effect of the two numeric-cleaning `if col in results.columns`
blocks on one column: `anomaly_score` and `prediction_error_pct` get
their respective pipelines, every other column is untouched. -/
def numStepVal (n : String) (d : List Val) : List Val :=
  if n = "anomaly_score" then d.map sanitizeScoreVal
  else if n = "prediction_error_pct" then d.map sanitizePctVal
  else d

/-- The numeric-cleaning pass of `process_new_anomalies`. -/
def sanitizeNumeric (f : ResultFrame) : ResultFrame :=
  ⟨f.columns.map (fun c => (c.1, numStepVal c.1 c.2))⟩

/-- The whole sanitization stage of `process_new_anomalies`: boolean
conversion, then infinity replacement / null fill / clamping. -/
def sanitizeFrame (f : ResultFrame) : Except Unit ResultFrame :=
  match astIntFlags f with
  | .error e => .error e
  | .ok g => .ok (sanitizeNumeric g)

/-- `columns_to_write` of `process_new_anomalies`. -/
def columns_to_write : List String :=
  ["ds", "y", "yhat", "yhat_lower", "yhat_upper", "residual",
   "outside_interval", "high_residual", "is_anomaly", "anomaly_score",
   "variable", "prediction_error_pct", "source_file"]

/-- `available_cols = [col for col in columns_to_write if col in
results.columns]; results_to_write = results[available_cols]`. -/
def selectCols (f : ResultFrame) : ResultFrame :=
  ⟨columns_to_write.filterMap (fun c => (colData f c).map (fun d => (c, d)))⟩

/-- `df_long.groupby(['datetime', 'variable_name'])['source_file'].first()`
for one key (source files are strings, hence non-null: the first value
of the group). -/
def sourceFileFor (df : List LongRow) (t : ℕ) (v : String) : Option String :=
  ((df.filter (fun r => r.datetime = t ∧ r.variable_name = v)).map LongRow.source_file).head?

/-- Reading the `(row['ds'], row['variable'])` key of one result row;
a key of unexpected shape never matches the groupby map (so the
`source_file_map.get(..., 'unknown')` default applies). -/
def keyOf : Val → Val → Option (ℕ × String)
  | .dt t, .str s => some (t, s)
  | _, _ => none

/-- The `if 'source_file' not in results.columns:` block of
`process_new_anomalies`: build the per-key map from the long frame and
append a `source_file` column computed rowwise from `ds` and
`variable`, defaulting to `'unknown'`; accessing a missing `ds` or
`variable` column raises (`Except.error`). -/
def addSourceFile (df_long : List LongRow) (f : ResultFrame) : Except Unit ResultFrame :=
  if "source_file" ∈ colNames f then .ok f
  else
    match colData f "ds", colData f "variable" with
    | some dsCol, some varCol =>
      .ok ⟨f.columns ++ [("source_file",
        (dsCol.zip varCol).map (fun p =>
          match keyOf p.1 p.2 with
          | some k => Val.str ((sourceFileFor df_long k.1 k.2).getD "unknown")
          | none => Val.str "unknown"))]⟩
    | _, _ => .error ()

/-- `results['is_anomaly'].sum()`: `Except.error` models the `KeyError`
on a missing column; by this point the column, which was converted by
`astype(int)`, holds finite numbers (booleans count as 0/1 and other
shapes as 0, unreachable after the conversion). -/
def sumCol (f : ResultFrame) (name : String) : Except Unit ℚ :=
  match colData f name with
  | none => .error ()
  | some d => .ok (d.foldr (fun v acc =>
      (match v with
       | .num q => q
       | .bool b => if b then 1 else 0
       | _ => 0) + acc) 0)


/-- The external Prophet detector (`pipeline.scripts.prophet_anomaly_detector`,
outside this repository): its loaded model keys (`detector.models.keys()`)
and `detect_anomalies_multiple`, whose Python exception is an
`Except.error`. -/
structure Detector where
  modelKeys : List String
  detect : WideTable → List String → Except Unit ResultFrame

/-- `available_vars = [v for v in detector.models.keys() if v in
df_wide.columns]` (the wide frame's `DATETIME` column is held apart in
`WideTable.timestamps`). -/
def availableVars (det : Detector) (w : WideTable) : List String :=
  det.modelKeys.filter (fun v => v ∈ w.columns)

/-- The observable outcome of one `process_new_anomalies` call: the
returned pair, the batches handed to `sql_conn.write_dataframe`, whether
the no-common-variables warning was printed, and whether the surrounding
`except` logged an error. -/
structure ProcResult where
  n_datetimes : ℕ
  n_anomalies : ℚ
  writes : List ResultFrame
  warnedNoOverlap : Bool
  errorLogged : Bool
deriving DecidableEq, Repr

/-- `process_new_anomalies(sql_conn, detector, since_datetime)`.  The
input table is the state of `datos_proceso` at the inner query;
`writeOk` is the boolean returned by `sql_conn.write_dataframe`. -/
def process_new_anomalies (table : List LongRow) (det : Detector) (writeOk : Bool)
    (since : ℕ) : ProcResult :=
  let df_long := get_new_data_from_sql table since
  if df_long.isEmpty then ⟨0, 0, [], false, false⟩
  else
    let df_wide := convert_long_to_wide df_long
    let unique_datetimes := df_wide.timestamps.length
    let available_vars := availableVars det df_wide
    if available_vars.isEmpty then ⟨0, 0, [], true, false⟩
    else
      match det.detect df_wide available_vars with
      | .error _ => ⟨0, 0, [], false, true⟩
      | .ok results =>
        if results.nrows = 0 then ⟨0, 0, [], false, false⟩
        else
          match addSourceFile df_long results with
          | .error _ => ⟨0, 0, [], false, true⟩
          | .ok r1 =>
            match sanitizeFrame r1 with
            | .error _ => ⟨0, 0, [], false, true⟩
            | .ok r3 =>
              let results_to_write := selectCols r3
              if writeOk then
                match sumCol r3 "is_anomaly" with
                | .error _ => ⟨0, 0, [results_to_write], false, true⟩
                | .ok s => ⟨unique_datetimes, s, [results_to_write], false, false⟩
              else ⟨0, 0, [results_to_write], false, false⟩

/-- The worker fields mutated by `check_and_process`. -/
structure WorkerState where
  last_processed_datetime : ℕ
  total_processed : ℕ
  total_anomalies : ℚ
deriving DecidableEq, Repr

/-- `SELECT MAX(datetime) FROM datos_proceso` (`none` models a NULL
result on an empty table). -/
def maxDt : List LongRow → Option ℕ
  | [] => none
  | r :: rs =>
    some (match maxDt rs with
          | none => r.datetime
          | some m => max r.datetime m)

/-- Lines 336–338 of `worker_procesamiento.py`: `if new_last >
self.last_processed_datetime: self.last_processed_datetime = new_last` —
the watermark-advance operation. -/
def advanceWatermark (current candidate : ℕ) : ℕ :=
  if candidate > current then candidate else current

/-- `AnomalyDetectionWorker.check_and_process`.  The three table
arguments are the states of `datos_proceso` at the three SQL
round-trips of one cycle: `t0` at the worker's own poll, `t1` at the
query inside `process_new_anomalies`, and `t2` at the `MAX(datetime)`
re-query after the write; concurrent inserts make them differ. -/
def check_and_process (s : WorkerState) (t0 t1 t2 : List LongRow) (det : Detector)
    (writeOk : Bool) : WorkerState × Bool :=
  if (get_new_data_from_sql t0 s.last_processed_datetime).isEmpty then (s, false)
  else
    let pr := process_new_anomalies t1 det writeOk s.last_processed_datetime
    if 0 < pr.n_datetimes then
      ({ last_processed_datetime :=
           match maxDt t2 with
           | some new_last => advanceWatermark s.last_processed_datetime new_last
           | none => s.last_processed_datetime
         total_processed := s.total_processed + pr.n_datetimes
         total_anomalies := s.total_anomalies + pr.n_anomalies }, true)
    else (s, false)

/-- How `AnomalyDetectionWorker.initialize` can end: no trained model
on disk (early return before connecting), `connect()` returning False,
an exception inside its `try` (after the connection was established),
or success. -/
inductive InitOutcome where
  | noModels
  | connectFailed
  | initException
  | initOk
deriving DecidableEq, Repr

/-- Whether `initialize` established the SQL connection before
returning: `connect()` must have returned True, which holds exactly on
the `initException` and `initOk` outcomes. -/
def connEstablished : InitOutcome → Bool
  | .noModels => false
  | .connectFailed => false
  | .initException => true
  | .initOk => true

/-- Whether `initialize` returned True. -/
def initOk : InitOutcome → Bool
  | .initOk => true
  | _ => false

/-- How the `while True` loop of `AnomalyDetectionWorker.run` ends after
some number of completed iterations: a `KeyboardInterrupt` (caught by the
`except`) or any other exception (propagating out of the `try`). -/
inductive LoopEnd where
  | keyboardInterrupt (iters : ℕ)
  | otherException (iters : ℕ)
deriving DecidableEq, Repr

/-- The resource trace of one `AnomalyDetectionWorker.run` call. -/
structure RunTrace where
  connectionEstablished : Bool
  disconnected : Bool
  iterationsRun : ℕ
deriving DecidableEq, Repr

/-- `AnomalyDetectionWorker.run`: if `initialize()` returns False the
method returns at once — before the `try/except/finally` block, so no
cleanup runs; otherwise the loop runs under
`try: ... except KeyboardInterrupt: ... finally: if self.sql_conn:
self.sql_conn.disconnect()`, and the `finally` disconnects on every way
out of the loop. -/
def run (init : InitOutcome) (e : LoopEnd) : RunTrace :=
  if initOk init = false then
    { connectionEstablished := connEstablished init
      disconnected := false
      iterationsRun := 0 }
  else
    match e with
    | .keyboardInterrupt n =>
      { connectionEstablished := true, disconnected := true, iterationsRun := n }
    | .otherException n =>
      { connectionEstablished := true, disconnected := true, iterationsRun := n }

/-! ### Supporting lemmas -/

lemma mem_get_new_data {r : LongRow} {table : List LongRow} {since : ℕ} :
    r ∈ get_new_data_from_sql table since ↔ r ∈ table ∧ since < r.datetime := by
  unfold get_new_data_from_sql
  rw [(List.perm_insertionSort rowLE _).mem_iff, List.mem_filter]
  simp

lemma maxDt_spec {l : List LongRow} {m : ℕ} :
    maxDt l = some m ↔ (∃ r ∈ l, r.datetime = m) ∧ ∀ r ∈ l, r.datetime ≤ m := by
  induction l generalizing m with
  | nil => simp [maxDt]
  | cons a l ih =>
    cases hl : maxDt l with
    | none =>
      have hlnil : l = [] := by
        cases l with
        | nil => rfl
        | cons b l' => simp [maxDt] at hl
      subst hlnil
      simp [maxDt]
      omega
    | some k =>
      obtain ⟨⟨r0, hr0, hr0k⟩, hub⟩ := ih.mp hl
      simp only [maxDt, hl, Option.some_inj]
      constructor
      · intro h
        constructor
        · rcases le_or_lt a.datetime k with h1 | h1
          · exact ⟨r0, List.mem_cons_of_mem _ hr0, by omega⟩
          · exact ⟨a, List.mem_cons_self _ _, by omega⟩
        · intro r hr
          rcases List.mem_cons.mp hr with he | he
          · subst he; omega
          · have := hub r he; omega
      · rintro ⟨⟨r, hr, hrm⟩, hub2⟩
        have h1 : a.datetime ≤ m := hub2 a (List.mem_cons_self _ _)
        have h2 : k ≤ m := by
          have := hub2 r0 (List.mem_cons_of_mem _ hr0)
          omega
        have h3 : m ≤ max a.datetime k := by
          rcases List.mem_cons.mp hr with he | he
          · subst he; omega
          · have := hub r he; omega
        omega

lemma maxDt_isSome_of_mem {l : List LongRow} {r : LongRow} (h : r ∈ l) :
    ∃ m, maxDt l = some m := by
  cases l with
  | nil => cases h
  | cons a l' => exact ⟨_, rfl⟩

/-! ### C3: the watermark-advance operation -/

/-- **C3.** The watermark never regresses: the inline advance of
`check_and_process` computes `max(current, candidate)` (so a stale
candidate such as `T - 1` leaves the watermark at `T`), and the
watermark held by the worker is monotonically non-decreasing across
every cycle, whatever the table snapshots, detector and write outcome
are. -/
theorem watermark_advance_max_monotone :
    (∀ current candidate : ℕ, advanceWatermark current candidate = max current candidate)
    ∧ (∀ (s : WorkerState) (t0 t1 t2 : List LongRow) (det : Detector) (writeOk : Bool),
        s.last_processed_datetime ≤
          (check_and_process s t0 t1 t2 det writeOk).1.last_processed_datetime)
    ∧ (∀ T : ℕ, advanceWatermark T (T - 1) = T) := by
  have hmax : ∀ current candidate : ℕ, advanceWatermark current candidate = max current candidate := by
    intro c k
    unfold advanceWatermark
    split <;> omega
  have hadv : ∀ c nl : ℕ, c ≤ advanceWatermark c nl := by
    intro c nl
    rw [hmax]
    exact le_max_left _ _
  refine ⟨hmax, ?_, ?_⟩
  · intro s t0 t1 t2 det writeOk
    unfold check_and_process
    split
    · exact le_refl _
    · dsimp only
      split
      · cases maxDt t2 with
        | none => exact le_refl _
        | some nl => exact hadv _ nl
      · exact le_refl _
  · intro T
    rw [hmax]
    omega

/-! ### C2: failed persistence keeps the watermark -/

lemma process_ndt_zero_of_writeFail (table : List LongRow) (det : Detector) (since : ℕ) :
    (process_new_anomalies table det false since).n_datetimes = 0 := by
  unfold process_new_anomalies
  dsimp only
  split
  · rfl
  split
  · rfl
  split
  · rfl
  · split
    · rfl
    · split
      · rfl
      · split
        · rfl
        · simp

lemma process_ndt_zero_of_detectErr (table : List LongRow) (det : Detector)
    (writeOk : Bool) (since : ℕ)
    (h : ∀ w vs, det.detect w vs = Except.error ()) :
    (process_new_anomalies table det writeOk since).n_datetimes = 0 := by
  unfold process_new_anomalies
  dsimp only
  split
  · rfl
  split
  · rfl
  rw [h]

/-- Concrete fixtures reused by witnesses and counterexamples below: a
one-row input table, a detector with one model whose output frame
already carries `is_anomaly` and `source_file`, and a fresh worker
state with watermark 0. -/
def exTable : List LongRow := [⟨1, "A", Val.num 10, "f"⟩]

def exDetector : Detector :=
  ⟨["A"], fun _ _ => .ok ⟨[("is_anomaly", [Val.bool true]), ("source_file", [Val.str "f"])]⟩⟩

def exState : WorkerState := ⟨0, 0, 0⟩

/-- **C2.** If the write of the sanitized records fails, or detection
raises, the cycle leaves the watermark at its pre-cycle value, so the
next poll (strictly newer than the watermark) selects exactly the same
unprocessed window again. -/
theorem failed_persist_keeps_watermark (s : WorkerState) (t : List LongRow)
    (det : Detector) (writeOk : Bool)
    (h : writeOk = false ∨ ∀ w vs, det.detect w vs = Except.error ()) :
    (check_and_process s t t t det writeOk).1.last_processed_datetime
      = s.last_processed_datetime
    ∧ get_new_data_from_sql t
        (check_and_process s t t t det writeOk).1.last_processed_datetime
      = get_new_data_from_sql t s.last_processed_datetime := by
  have hz : (process_new_anomalies t det writeOk s.last_processed_datetime).n_datetimes = 0 := by
    rcases h with h | h
    · subst h
      exact process_ndt_zero_of_writeFail t det s.last_processed_datetime
    · exact process_ndt_zero_of_detectErr t det writeOk s.last_processed_datetime h
  have hst : (check_and_process s t t t det writeOk).1 = s := by
    unfold check_and_process
    split
    · rfl
    · dsimp only
      rw [hz]
      simp
  rw [hst]
  exact ⟨rfl, rfl⟩

/-- Witness for C2 at a concrete failing write. -/
theorem failed_persist_keeps_watermark_witness :
    (false = false ∨ ∀ w vs, exDetector.detect w vs = Except.error ())
    ∧ ((check_and_process exState exTable exTable exTable exDetector false).1.last_processed_datetime
         = exState.last_processed_datetime
       ∧ get_new_data_from_sql exTable
           (check_and_process exState exTable exTable exTable exDetector false).1.last_processed_datetime
         = get_new_data_from_sql exTable exState.last_processed_datetime) :=
  ⟨Or.inl rfl,
   failed_persist_keeps_watermark exState exTable exDetector false (Or.inl rfl)⟩

/-! ### C7: empty model/data variable intersection -/

/-- **C7.** When new events exist but no variable of the wide frame has a
loaded model, the cycle returns `(0, 0)` having attempted no write and
printed the no-common-variables warning, the worker state (watermark
included) is unchanged, and the warning is printed in exactly this
situation — in particular a scored cycle that finds zero anomalies never
produces it. -/
theorem empty_intersection_skips_cycle (s : WorkerState) (t : List LongRow)
    (det : Detector) (writeOk : Bool)
    (hne : (get_new_data_from_sql t s.last_processed_datetime).isEmpty = false)
    (hno : availableVars det
        (convert_long_to_wide (get_new_data_from_sql t s.last_processed_datetime)) = []) :
    process_new_anomalies t det writeOk s.last_processed_datetime
      = ⟨0, 0, [], true, false⟩
    ∧ (check_and_process s t t t det writeOk).1 = s
    ∧ ∀ (det' : Detector) (w' : Bool),
        ((process_new_anomalies t det' w' s.last_processed_datetime).warnedNoOverlap = true
         ↔ ((get_new_data_from_sql t s.last_processed_datetime).isEmpty = false
            ∧ availableVars det'
                (convert_long_to_wide (get_new_data_from_sql t s.last_processed_datetime)) = [])) := by
  have h1 : process_new_anomalies t det writeOk s.last_processed_datetime
      = ⟨0, 0, [], true, false⟩ := by
    unfold process_new_anomalies
    simp [hne, hno]
  refine ⟨h1, ?_, ?_⟩
  · unfold check_and_process
    split
    · rfl
    · dsimp only
      rw [h1]
      simp
  · intro det' w'
    unfold process_new_anomalies
    dsimp only
    split
    · rename_i hemt
      rw [hemt] at hne
      cases hne
    · split
      · rename_i hovt
        rw [List.isEmpty_iff] at hovt
        simp [hne, hovt]
      · rename_i hovt
        simp only [List.isEmpty_iff] at hovt
        repeat' split
        all_goals simp [hovt]

/-- A detector whose single model (`"B"`) matches no column of the
example table's wide frame. -/
def exDetectorNoOverlap : Detector := ⟨["B"], fun _ _ => .ok ⟨[]⟩⟩

/-- Witness for C7: one new event for variable `"A"`, models only for
`"B"`. -/
theorem empty_intersection_skips_cycle_witness :
    ((get_new_data_from_sql exTable exState.last_processed_datetime).isEmpty = false
     ∧ availableVars exDetectorNoOverlap
         (convert_long_to_wide (get_new_data_from_sql exTable exState.last_processed_datetime)) = [])
    ∧ (process_new_anomalies exTable exDetectorNoOverlap true exState.last_processed_datetime
         = ⟨0, 0, [], true, false⟩
       ∧ (check_and_process exState exTable exTable exTable exDetectorNoOverlap true).1 = exState
       ∧ ∀ (det' : Detector) (w' : Bool),
           ((process_new_anomalies exTable det' w' exState.last_processed_datetime).warnedNoOverlap = true
            ↔ ((get_new_data_from_sql exTable exState.last_processed_datetime).isEmpty = false
               ∧ availableVars det'
                   (convert_long_to_wide
                     (get_new_data_from_sql exTable exState.last_processed_datetime)) = []))) :=
  ⟨⟨by decide, by decide⟩,
   empty_intersection_skips_cycle exState exTable exDetectorNoOverlap true (by decide) (by decide)⟩

/-! ### C5: the sanitization pipeline on each field -/

lemma numStepVal_pct (d : List Val) :
    numStepVal "prediction_error_pct" d = d.map sanitizePctVal := rfl

lemma numStepVal_score (d : List Val) :
    numStepVal "anomaly_score" d = d.map sanitizeScoreVal := rfl

lemma colData_sanitizeNumeric (f : ResultFrame) (n : String) :
    colData (sanitizeNumeric f) n = (colData f n).map (numStepVal n) := by
  unfold sanitizeNumeric colData
  dsimp only
  induction f.columns with
  | nil => rfl
  | cons c cs ih =>
    by_cases h : c.1 = n
    · simp [List.find?, h]
    · simp only [List.map_cons, List.find?]
      rw [show (decide (c.1 = n)) = false by simp [h]]
      exact ih

/-- **C5.** Sanitization acts on `prediction_error_pct` by replacing the
two infinities with null, filling null with 0, then clamping into
`[0, 999.99]`; on `anomaly_score` by filling null with 0 then clamping
into `[0, 999.99]`; both saturate (a 5000 score becomes 999.99, a null
error percentage becomes 0, every finite input lands inside the closed
interval) and the boolean flags are cast to integers in `{0, 1}`. -/
theorem sanitize_fields_spec :
    (∀ f : ResultFrame,
       colData (sanitizeNumeric f) "prediction_error_pct"
         = (colData f "prediction_error_pct").map (List.map sanitizePctVal)
       ∧ colData (sanitizeNumeric f) "anomaly_score"
         = (colData f "anomaly_score").map (List.map sanitizeScoreVal))
    ∧ sanitizeScoreVal (Val.num 5000) = Val.num (99999/100)
    ∧ sanitizePctVal Val.nan = Val.num 0
    ∧ sanitizeScoreVal Val.nan = Val.num 0
    ∧ sanitizePctVal Val.posInf = Val.num 0
    ∧ sanitizePctVal Val.negInf = Val.num 0
    ∧ (∀ q : ℚ, ∃ q' : ℚ,
        sanitizeScoreVal (Val.num q) = Val.num q' ∧ 0 ≤ q' ∧ q' ≤ 99999/100)
    ∧ (∀ q : ℚ, ∃ q' : ℚ,
        sanitizePctVal (Val.num q) = Val.num q' ∧ 0 ≤ q' ∧ q' ≤ 99999/100)
    ∧ (∀ b : Bool,
        astInt (Val.bool b) = Except.ok (Val.num (if b then 1 else 0))
        ∧ ((if b then (1 : ℚ) else 0) = 0 ∨ (if b then (1 : ℚ) else 0) = 1)) := by
  have hscore5000 : sanitizeScoreVal (Val.num 5000) = Val.num (99999/100) := by
    unfold sanitizeScoreVal fillna0 clipVal
    norm_num
  have hpctnan : sanitizePctVal Val.nan = Val.num 0 := by
    unfold sanitizePctVal replaceInfNan fillna0 clipVal
    norm_num
  have hscorenan : sanitizeScoreVal Val.nan = Val.num 0 := by
    unfold sanitizeScoreVal fillna0 clipVal
    norm_num
  have hpctpos : sanitizePctVal Val.posInf = Val.num 0 := by
    unfold sanitizePctVal replaceInfNan fillna0 clipVal
    norm_num
  have hpctneg : sanitizePctVal Val.negInf = Val.num 0 := by
    unfold sanitizePctVal replaceInfNan fillna0 clipVal
    norm_num
  refine ⟨?_, hscore5000, hpctnan, hscorenan, hpctpos, hpctneg, ?_, ?_, ?_⟩
  · intro f
    constructor
    · rw [colData_sanitizeNumeric]
      cases colData f "prediction_error_pct" with
      | none => rfl
      | some d => simp [numStepVal_pct]
    · rw [colData_sanitizeNumeric]
      cases colData f "anomaly_score" with
      | none => rfl
      | some d => simp [numStepVal_score]
  · intro q
    unfold sanitizeScoreVal fillna0 clipVal
    dsimp only
    split_ifs with h1 h2
    · exact ⟨0, rfl, le_refl 0, by norm_num⟩
    · exact ⟨99999/100, rfl, by norm_num, le_refl _⟩
    · exact ⟨q, rfl, by linarith, by linarith⟩
  · intro q
    unfold sanitizePctVal replaceInfNan fillna0 clipVal
    dsimp only
    split_ifs with h1 h2
    · exact ⟨0, rfl, le_refl 0, by norm_num⟩
    · exact ⟨99999/100, rfl, by norm_num, le_refl _⟩
    · exact ⟨q, rfl, by linarith, by linarith⟩
  · intro b
    cases b
    · exact ⟨rfl, Or.inl rfl⟩
    · exact ⟨rfl, Or.inr rfl⟩

/-! ### C6: sanitization is idempotent -/

lemma truncQ_intCast (k : ℤ) : truncQ ((k : ℚ)) = k := by
  unfold truncQ
  rw [Rat.num_intCast, Rat.den_intCast]
  split_ifs with h
  · simp only [Nat.div_one]
    omega
  · simp only [Nat.div_one]
    omega

lemma astInt_idem {v w : Val} (h : astInt v = .ok w) : astInt w = .ok w := by
  cases v with
  | bool b =>
    simp only [astInt, Except.ok.injEq] at h
    subst h
    cases b
    · show astInt (Val.num 0) = _
      simp only [astInt, Except.ok.injEq, Val.num.injEq]
      rw [show ((0 : ℚ)) = ((0 : ℤ) : ℚ) by norm_num, truncQ_intCast]
      norm_num
    · show astInt (Val.num 1) = _
      simp only [astInt, Except.ok.injEq, Val.num.injEq]
      rw [show ((1 : ℚ)) = ((1 : ℤ) : ℚ) by norm_num, truncQ_intCast]
      norm_num
  | num q =>
    simp only [astInt, Except.ok.injEq] at h
    subst h
    simp only [astInt, Except.ok.injEq, Val.num.injEq]
    rw [truncQ_intCast]
  | posInf => simp [astInt] at h
  | negInf => simp [astInt] at h
  | nan => simp [astInt] at h
  | str s => simp [astInt] at h
  | dt t => simp [astInt] at h

lemma mapValsE_astInt_idem {d d' : List Val} (h : mapValsE astInt d = .ok d') :
    mapValsE astInt d' = .ok d' := by
  induction d generalizing d' with
  | nil =>
    simp only [mapValsE, Except.ok.injEq] at h
    subst h
    rfl
  | cons v vs ih =>
    unfold mapValsE at h
    cases hv : astInt v with
    | error e => rw [hv] at h; cases h
    | ok w =>
      rw [hv] at h
      cases hvs : mapValsE astInt vs with
      | error e => rw [hvs] at h; cases h
      | ok ws =>
        rw [hvs] at h
        simp only [Except.ok.injEq] at h
        subst h
        unfold mapValsE
        rw [astInt_idem hv, ih hvs]

lemma sanitizeScoreVal_fix {q : ℚ} (h0 : 0 ≤ q) (h1 : q ≤ 99999/100) :
    sanitizeScoreVal (Val.num q) = Val.num q := by
  unfold sanitizeScoreVal fillna0 clipVal
  dsimp only
  rw [if_neg (by linarith), if_neg (by linarith)]

lemma sanitizePctVal_fix {q : ℚ} (h0 : 0 ≤ q) (h1 : q ≤ 99999/100) :
    sanitizePctVal (Val.num q) = Val.num q := by
  unfold sanitizePctVal replaceInfNan fillna0 clipVal
  dsimp only
  rw [if_neg (by linarith), if_neg (by linarith)]

lemma sanitizeScoreVal_range (v : Val) :
    (∃ q : ℚ, sanitizeScoreVal v = Val.num q ∧ 0 ≤ q ∧ q ≤ 99999/100)
    ∨ sanitizeScoreVal v = v := by
  cases v with
  | num q =>
    left
    unfold sanitizeScoreVal fillna0 clipVal
    dsimp only
    split_ifs with h1 h2
    · exact ⟨0, rfl, le_refl 0, by norm_num⟩
    · exact ⟨99999/100, rfl, by norm_num, le_refl _⟩
    · exact ⟨q, rfl, by linarith, by linarith⟩
  | posInf => exact Or.inl ⟨99999/100, rfl, by norm_num, le_refl _⟩
  | negInf => exact Or.inl ⟨0, rfl, le_refl 0, by norm_num⟩
  | nan =>
    left
    refine ⟨0, ?_, le_refl 0, by norm_num⟩
    unfold sanitizeScoreVal fillna0 clipVal
    norm_num
  | bool b => exact Or.inr rfl
  | str s => exact Or.inr rfl
  | dt t => exact Or.inr rfl

lemma sanitizePctVal_range (v : Val) :
    (∃ q : ℚ, sanitizePctVal v = Val.num q ∧ 0 ≤ q ∧ q ≤ 99999/100)
    ∨ sanitizePctVal v = v := by
  cases v with
  | num q =>
    left
    unfold sanitizePctVal replaceInfNan fillna0 clipVal
    dsimp only
    split_ifs with h1 h2
    · exact ⟨0, rfl, le_refl 0, by norm_num⟩
    · exact ⟨99999/100, rfl, by norm_num, le_refl _⟩
    · exact ⟨q, rfl, by linarith, by linarith⟩
  | posInf =>
    left
    refine ⟨0, ?_, le_refl 0, by norm_num⟩
    unfold sanitizePctVal replaceInfNan fillna0 clipVal
    norm_num
  | negInf =>
    left
    refine ⟨0, ?_, le_refl 0, by norm_num⟩
    unfold sanitizePctVal replaceInfNan fillna0 clipVal
    norm_num
  | nan =>
    left
    refine ⟨0, ?_, le_refl 0, by norm_num⟩
    unfold sanitizePctVal replaceInfNan fillna0 clipVal
    norm_num
  | bool b => exact Or.inr rfl
  | str s => exact Or.inr rfl
  | dt t => exact Or.inr rfl

lemma sanitizeScoreVal_idem (v : Val) :
    sanitizeScoreVal (sanitizeScoreVal v) = sanitizeScoreVal v := by
  rcases sanitizeScoreVal_range v with ⟨q, hq, h0, h1⟩ | hv
  · rw [hq, sanitizeScoreVal_fix h0 h1]
  · rw [hv, hv]

lemma sanitizePctVal_idem (v : Val) :
    sanitizePctVal (sanitizePctVal v) = sanitizePctVal v := by
  rcases sanitizePctVal_range v with ⟨q, hq, h0, h1⟩ | hv
  · rw [hq, sanitizePctVal_fix h0 h1]
  · rw [hv, hv]

lemma col_pass_idem (n : String) (d d1 : List Val) (h : flagStepVal n d = .ok d1) :
    flagStepVal n (numStepVal n d1) = .ok (numStepVal n d1)
    ∧ numStepVal n (numStepVal n d1) = numStepVal n d1 := by
  by_cases hflag : n = "outside_interval" ∨ n = "high_residual" ∨ n = "is_anomaly"
  · have hnum : ∀ e : List Val, numStepVal n e = e := by
      intro e
      rcases hflag with h1 | h1 | h1 <;> subst h1 <;> rfl
    unfold flagStepVal at h
    rw [if_pos hflag] at h
    rw [hnum, hnum]
    refine ⟨?_, rfl⟩
    unfold flagStepVal
    rw [if_pos hflag]
    exact mapValsE_astInt_idem h
  · have hfs : ∀ e : List Val, flagStepVal n e = .ok e := by
      intro e
      unfold flagStepVal
      rw [if_neg hflag]
    refine ⟨hfs _, ?_⟩
    by_cases hs : n = "anomaly_score"
    · subst hs
      rw [numStepVal_score, numStepVal_score, List.map_map]
      exact List.map_congr_left (fun x _ => sanitizeScoreVal_idem x)
    · by_cases hp : n = "prediction_error_pct"
      · subst hp
        rw [numStepVal_pct, numStepVal_pct, List.map_map]
        exact List.map_congr_left (fun x _ => sanitizePctVal_idem x)
      · have hid : ∀ e : List Val, numStepVal n e = e := by
          intro e
          unfold numStepVal
          rw [if_neg hs, if_neg hp]
        simp only [hid]

lemma flagCols_map_idem (cs cs0 : List (String × List Val)) (h : flagCols cs = .ok cs0) :
    flagCols (cs0.map (fun c => (c.1, numStepVal c.1 c.2)))
      = .ok (cs0.map (fun c => (c.1, numStepVal c.1 c.2)))
    ∧ (cs0.map (fun c => (c.1, numStepVal c.1 c.2))).map (fun c => (c.1, numStepVal c.1 c.2))
      = cs0.map (fun c => (c.1, numStepVal c.1 c.2)) := by
  induction cs generalizing cs0 with
  | nil =>
    simp only [flagCols, Except.ok.injEq] at h
    subst h
    exact ⟨rfl, rfl⟩
  | cons c cs ih =>
    unfold flagCols at h
    cases hc : flagStepVal c.1 c.2 with
    | error e => rw [hc] at h; cases h
    | ok d1 =>
      rw [hc] at h
      cases hcs : flagCols cs with
      | error e => rw [hcs] at h; cases h
      | ok ds =>
        rw [hcs] at h
        simp only [Except.ok.injEq] at h
        subst h
        obtain ⟨ih1, ih2⟩ := ih ds hcs
        obtain ⟨hc1, hc2⟩ := col_pass_idem c.1 c.2 d1 hc
        constructor
        · simp only [List.map_cons]
          unfold flagCols
          rw [hc1, ih1]
        · simp only [List.map_cons] at ih2 ⊢
          rw [hc2, ih2]

/-- **C6.** The sanitization stage is idempotent: whenever one
application succeeds and yields a frame, applying the stage to that
frame succeeds and returns it unchanged. -/
theorem sanitize_idempotent (f g : ResultFrame) (h : sanitizeFrame f = Except.ok g) :
    sanitizeFrame g = Except.ok g := by
  unfold sanitizeFrame at h ⊢
  cases hf : astIntFlags f with
  | error e => rw [hf] at h; cases h
  | ok g0 =>
    rw [hf] at h
    simp only [Except.ok.injEq] at h
    subst h
    unfold astIntFlags at hf ⊢
    cases hfc : flagCols f.columns with
    | error e => rw [hfc] at hf; cases hf
    | ok cs0 =>
      rw [hfc] at hf
      simp only [Except.ok.injEq] at hf
      subst hf
      obtain ⟨h1, h2⟩ := flagCols_map_idem f.columns cs0 hfc
      have hcols : (sanitizeNumeric ⟨cs0⟩).columns
          = cs0.map (fun c => (c.1, numStepVal c.1 c.2)) := rfl
      rw [hcols, h1]
      dsimp only
      have hfix : sanitizeNumeric ⟨cs0.map (fun c => (c.1, numStepVal c.1 c.2))⟩
          = sanitizeNumeric ⟨cs0⟩ := by
        unfold sanitizeNumeric
        dsimp only
        rw [h2]
      rw [hfix]

instance {e a : Type} [DecidableEq e] [DecidableEq a] : DecidableEq (Except e a) :=
  fun x y =>
    match x, y with
    | .error u, .error u' =>
      if h : u = u' then isTrue (by rw [h]) else isFalse (fun hh => h (Except.error.inj hh))
    | .ok v, .ok v' =>
      if h : v = v' then isTrue (by rw [h]) else isFalse (fun hh => h (Except.ok.inj hh))
    | .error _, .ok _ => isFalse (fun hh => Except.noConfusion hh)
    | .ok _, .error _ => isFalse (fun hh => Except.noConfusion hh)

/-- A concrete frame for the idempotence witness: one boolean flag
column and one untouched numeric column. -/
def exSanFrame : ResultFrame := ⟨[("is_anomaly", [Val.bool true]), ("y", [Val.num 10])]⟩

/-- `exSanFrame` after one sanitization pass. -/
def exSanFrameOut : ResultFrame := ⟨[("is_anomaly", [Val.num 1]), ("y", [Val.num 10])]⟩

/-- Witness for C6 at a concrete frame. -/
theorem sanitize_idempotent_witness :
    sanitizeFrame exSanFrame = Except.ok exSanFrameOut
    ∧ sanitizeFrame exSanFrameOut = Except.ok exSanFrameOut :=
  ⟨by decide, sanitize_idempotent exSanFrame exSanFrameOut (by decide)⟩

/-! ### C4: which duplicate survives the pivot -/

lemma isNA_eq_true_iff {v : Val} : v.isNA = true ↔ v = Val.nan := by
  cases v <;> simp [Val.isNA]

lemma firstNonNull_eq_head_filter (l : List Val) :
    firstNonNull l = ((l.filter (fun x => !x.isNA)).head?).getD Val.nan := by
  induction l with
  | nil => rfl
  | cons v vs ih =>
    cases hv : v.isNA
    · simp [firstNonNull, hv, List.filter_cons]
    · simp [firstNonNull, hv, List.filter_cons, ih]

lemma find_map_key {α β : Type} [DecidableEq α] (g : α → β) (ps : List α) (k : α) :
    (ps.map (fun p => (p, g p))).find? (fun c => c.1 = k)
      = (ps.find? (fun p => p = k)).map (fun p => (p, g p)) := by
  induction ps with
  | nil => rfl
  | cons p ps ih =>
    by_cases h : p = k
    · simp [List.find?_cons, h]
    · simp only [List.map_cons, List.find?_cons]
      rw [show (decide (p = k)) = false by simp [h]]
      exact ih

/-- The characterization of a pivot cell: the first non-null value, in
input order, among the values of the `(timestamp, variable)` pair — and
a null hole when the pair has no non-null value (or no value at all). -/
lemma cell_spec (df : List LongRow) (t : ℕ) (v : String) :
    (convert_long_to_wide df).cell t v
      = (((pairValues df t v).filter (fun x => !x.isNA)).head?).getD Val.nan := by
  rw [← firstNonNull_eq_head_filter]
  show (convert_long_to_wide df).cell t v = aggFirst df t v
  unfold WideTable.cell convert_long_to_wide
  dsimp only
  rw [find_map_key (fun p => aggFirst df p.1 p.2) (keptPairs df) (t, v)]
  cases hfind : (keptPairs df).find? (fun p => p = (t, v)) with
  | some p =>
    have hp : p = (t, v) := by
      have := List.find?_some hfind
      simpa using this
    subst hp
    rfl
  | none =>
    by_cases hmem : (t, v) ∈ keptPairs df
    · rw [List.find?_eq_none] at hfind
      have := hfind _ hmem
      simp at this
    · unfold keptPairs at hmem
      rw [List.mem_filter] at hmem
      push_neg at hmem
      by_cases hkey : (t, v) ∈ pairKeys df
      · have := hmem hkey
        cases hNA : (aggFirst df t v).isNA with
        | false => exact absurd (by simp [hNA]) this
        | true => exact (isNA_eq_true_iff.mp hNA).symm
      · have hpv : pairValues df t v = [] := by
          unfold pairValues
          rw [List.map_eq_nil_iff, List.filter_eq_nil_iff]
          intro r hr
          simp only [decide_eq_true_eq, not_and]
          intro h1 h2
          apply hkey
          unfold pairKeys
          rw [List.mem_dedup, List.mem_map]
          exact ⟨r, hr, by rw [h1, h2]⟩
        unfold aggFirst
        rw [hpv]
        rfl

/-- Two events for the same `(timestamp, variable)` pair whose
first-in-input-order value is null. -/
def dupFirstNull : List LongRow :=
  [⟨1, "A", Val.nan, "f"⟩, ⟨1, "A", Val.num 5, "f"⟩]

/-- **C4 (counterexample).** On a duplicate pair whose first value in
input order is null, widening does not keep that null first value: the
pivot's `first` aggregation skips nulls and the cell holds the later
non-null value `5`. -/
theorem widen_first_dup_counterexample :
    (dupFirstNull.map LongRow.value).head? = some Val.nan
    ∧ (convert_long_to_wide dupFirstNull).cell 1 "A" = Val.num 5 := by
  constructor
  · rfl
  · decide

/-- **C4 (amended).** For every input sequence and every
`(timestamp, variable)` pair, widening deterministically keeps the
first **non-null** value in input order for the pair (and yields a
null hole when the pair has no non-null value, the pair being dropped
entirely) — not the first value outright: a null first value is skipped
in favour of the first non-null one. -/
theorem widen_keeps_first_nonnull (df : List LongRow) (t : ℕ) (v : String) :
    (convert_long_to_wide df).cell t v
      = (((pairValues df t v).filter (fun x => !x.isNA)).head?).getD Val.nan :=
  cell_spec df t v

/-! ### C8: widen-then-narrow round trip -/

lemma mem_pairKeys {df : List LongRow} {t : ℕ} {v : String} :
    (t, v) ∈ pairKeys df ↔ ∃ r ∈ df, r.datetime = t ∧ r.variable_name = v := by
  unfold pairKeys
  rw [List.mem_dedup, List.mem_map]
  constructor
  · rintro ⟨r, hr, he⟩
    rw [Prod.mk.injEq] at he
    exact ⟨r, hr, he.1, he.2⟩
  · rintro ⟨r, hr, h1, h2⟩
    exact ⟨r, hr, by rw [h1, h2]⟩

lemma mem_keptPairs {df : List LongRow} {t : ℕ} {v : String} :
    (t, v) ∈ keptPairs df
      ↔ ((t, v) ∈ pairKeys df ∧ (aggFirst df t v).isNA = false) := by
  unfold keptPairs
  rw [List.mem_filter]
  simp

lemma mem_wide_timestamps {df : List LongRow} {t : ℕ} :
    t ∈ (convert_long_to_wide df).timestamps ↔ ∃ v, (t, v) ∈ keptPairs df := by
  show t ∈ ((keptPairs df).map Prod.fst).dedup ↔ _
  rw [List.mem_dedup, List.mem_map]
  constructor
  · rintro ⟨p, hp, rfl⟩
    exact ⟨p.2, hp⟩
  · rintro ⟨v, hv⟩
    exact ⟨(t, v), hv, rfl⟩

lemma mem_wide_columns {df : List LongRow} {v : String} :
    v ∈ (convert_long_to_wide df).columns ↔ ∃ t, (t, v) ∈ keptPairs df := by
  show v ∈ ((keptPairs df).map Prod.snd).dedup ↔ _
  rw [List.mem_dedup, List.mem_map]
  constructor
  · rintro ⟨p, hp, rfl⟩
    exact ⟨p.1, hp⟩
  · rintro ⟨t, ht⟩
    exact ⟨(t, v), ht, rfl⟩

lemma mem_transform {w : WideTable} {src : String} {r : LongRow} :
    r ∈ transform_data_to_long_format w src
      ↔ (r.variable_name ∈ w.columns ∧ r.datetime ∈ w.timestamps
         ∧ r.value = w.cell r.datetime r.variable_name ∧ r.source_file = src
         ∧ r.value.isNA = false) := by
  obtain ⟨t, v, x, s⟩ := r
  unfold transform_data_to_long_format
  rw [List.mem_filter, List.mem_flatMap]
  constructor
  · rintro ⟨⟨v', hv', hr⟩, hna⟩
    rw [List.mem_map] at hr
    obtain ⟨t', ht', he⟩ := hr
    cases he
    exact ⟨hv', ht', rfl, rfl, by simpa using hna⟩
  · rintro ⟨hv, ht, hval, hsrc, hna⟩
    dsimp only at hv ht hval hsrc hna
    subst hval
    subst hsrc
    refine ⟨⟨v, hv, ?_⟩, by simpa using hna⟩
    rw [List.mem_map]
    exact ⟨t, ht, rfl⟩

lemma pairValues_nodup {df : List LongRow}
    (h : (df.map (fun r => (r.datetime, r.variable_name))).Nodup)
    {r : LongRow} (hr : r ∈ df) :
    pairValues df r.datetime r.variable_name = [r.value] := by
  induction df with
  | nil => cases hr
  | cons a df ih =>
    rw [List.map_cons, List.nodup_cons] at h
    rcases List.mem_cons.mp hr with he | he
    · subst he
      unfold pairValues
      rw [List.filter_cons]
      rw [if_pos (by simp)]
      have hnil : df.filter (fun rr => decide (rr.datetime = r.datetime ∧ rr.variable_name = r.variable_name)) = [] := by
        rw [List.filter_eq_nil_iff]
        intro rr hrr
        simp only [decide_eq_true_eq, not_and]
        intro h1 h2
        exact h.1 (by rw [← h1, ← h2]; exact List.mem_map_of_mem _ hrr)
      show ((r :: df.filter _).map LongRow.value) = [r.value]
      rw [hnil]
      rfl
    · have hne : ¬(a.datetime = r.datetime ∧ a.variable_name = r.variable_name) := by
        rintro ⟨h1, h2⟩
        exact h.1 (by rw [h1, h2]; exact List.mem_map_of_mem _ he)
      unfold pairValues at ih ⊢
      rw [List.filter_cons, if_neg (by simpa using hne)]
      exact ih h.2 he

/-- A duplicate-free event set containing a null-valued event. -/
def exNullEvent : List LongRow := [⟨0, "A", Val.nan, "s"⟩]

/-- **C8 (counterexample).** A duplicate-free event set with a null
value does not round-trip: the single null event disappears (its pair
is dropped by the pivot and null rows are dropped by the narrow), so
widening then narrowing yields the empty set, not the original one. -/
theorem roundtrip_counterexample :
    (exNullEvent.map (fun r => (r.datetime, r.variable_name))).Nodup
    ∧ transform_data_to_long_format (convert_long_to_wide exNullEvent) "s" = []
    ∧ exNullEvent ≠ [] := by
  refine ⟨?_, ?_, ?_⟩ <;> decide

/-- **C8 (amended).** For every duplicate-free event set whose values
are all non-null, widening and then narrowing returns exactly the
original `(timestamp, variable, value)` triples, modulo row/column
ordering (stated as equality of triple membership). -/
theorem roundtrip_amended (df : List LongRow) (src : String)
    (hnodup : (df.map (fun r => (r.datetime, r.variable_name))).Nodup)
    (hnn : ∀ r ∈ df, r.value.isNA = false) :
    ∀ (t : ℕ) (v : String) (x : Val),
      (∃ r ∈ transform_data_to_long_format (convert_long_to_wide df) src,
          r.datetime = t ∧ r.variable_name = v ∧ r.value = x)
      ↔ ∃ r ∈ df, r.datetime = t ∧ r.variable_name = v ∧ r.value = x := by
  intro t v x
  constructor
  · rintro ⟨r, hr, ht, hv, hx⟩
    subst ht
    subst hv
    subst hx
    rw [mem_transform] at hr
    obtain ⟨hcv, hct, hval, hsrc, hna⟩ := hr
    rw [cell_spec] at hval
    cases hh : ((pairValues df r.datetime r.variable_name).filter (fun y => !y.isNA)).head? with
    | none =>
      rw [hh] at hval
      rw [hval] at hna
      simp [Val.isNA] at hna
    | some y =>
      rw [hh] at hval
      simp only [Option.getD_some] at hval
      have hy : y ∈ (pairValues df r.datetime r.variable_name).filter (fun z => !z.isNA) :=
        List.mem_of_mem_head? (by rw [hh]; exact rfl)
      have hy2 : y ∈ pairValues df r.datetime r.variable_name := List.mem_of_mem_filter hy
      unfold pairValues at hy2
      rw [List.mem_map] at hy2
      obtain ⟨r0, hr0, he⟩ := hy2
      rw [List.mem_filter] at hr0
      obtain ⟨hr0mem, hr0key⟩ := hr0
      simp only [decide_eq_true_eq] at hr0key
      exact ⟨r0, hr0mem, hr0key.1, hr0key.2, by rw [he, ← hval]⟩
  · rintro ⟨r, hr, ht, hv, hx⟩
    subst ht
    subst hv
    subst hx
    have hpv := pairValues_nodup hnodup hr
    have hnar : r.value.isNA = false := hnn r hr
    have hcell : (convert_long_to_wide df).cell r.datetime r.variable_name = r.value := by
      rw [cell_spec, hpv]
      simp [List.filter_cons, hnar]
    have hkept : (r.datetime, r.variable_name) ∈ keptPairs df := by
      rw [mem_keptPairs]
      constructor
      · rw [mem_pairKeys]
        exact ⟨r, hr, rfl, rfl⟩
      · unfold aggFirst
        rw [hpv]
        simp [firstNonNull, hnar]
    refine ⟨⟨r.datetime, r.variable_name, r.value, src⟩, ?_, rfl, rfl, rfl⟩
    rw [mem_transform]
    refine ⟨?_, ?_, ?_, rfl, hnar⟩
    · rw [mem_wide_columns]
      exact ⟨r.datetime, hkept⟩
    · rw [mem_wide_timestamps]
      exact ⟨r.variable_name, hkept⟩
    · exact hcell.symm

/-- Witness for C8 (amended) at a concrete duplicate-free non-null set. -/
theorem roundtrip_amended_witness :
    ((exTable.map (fun r => (r.datetime, r.variable_name))).Nodup
     ∧ ∀ r ∈ exTable, r.value.isNA = false)
    ∧ ∀ (t : ℕ) (v : String) (x : Val),
        (∃ r ∈ transform_data_to_long_format (convert_long_to_wide exTable) "f",
            r.datetime = t ∧ r.variable_name = v ∧ r.value = x)
        ↔ ∃ r ∈ exTable, r.datetime = t ∧ r.variable_name = v ∧ r.value = x :=
  ⟨⟨by decide, by decide⟩, roundtrip_amended exTable "f" (by decide) (by decide)⟩

/-! ### C1: where the new watermark comes from -/

/-- An event inserted into the input table after the poll but before
the `MAX(datetime)` re-query. -/
def exLateEvent : LongRow := ⟨5, "B", Val.num 7, "g"⟩

/-- **C1 (counterexample).** A successful cycle processed the window
whose true maximum event timestamp is 1, yet because a concurrent
insert with timestamp 5 landed before the `MAX(datetime)` re-query —
which scans the whole input table, not the processed window — the
watermark advances to 5, beyond the persisted batch. -/
theorem watermark_beyond_window_counterexample :
    maxDt (get_new_data_from_sql exTable exState.last_processed_datetime) = some 1
    ∧ (check_and_process exState exTable exTable (exTable ++ [exLateEvent])
         exDetector true).2 = true
    ∧ (check_and_process exState exTable exTable (exTable ++ [exLateEvent])
         exDetector true).1.last_processed_datetime = 5 := by
  refine ⟨by decide, by decide, by decide⟩

/-- **C1 (amended).** After a cycle whose persist step succeeded, the
worker advances the watermark to `MAX(datetime)` over the whole input
table at re-query time (kept at the old value if not larger).  When the
input table does not change during the cycle, this equals the true
maximum event timestamp of the processed window; with concurrent
inserts after the poll it can advance beyond the persisted batch. -/
theorem watermark_advances_to_window_max (s : WorkerState) (t : List LongRow)
    (det : Detector)
    (h : (check_and_process s t t t det true).2 = true) :
    maxDt (get_new_data_from_sql t s.last_processed_datetime)
      = some ((check_and_process s t t t det true).1.last_processed_datetime) := by
  unfold check_and_process at h ⊢
  by_cases hne : (get_new_data_from_sql t s.last_processed_datetime).isEmpty = true
  · rw [if_pos hne] at h
    simp at h
  · rw [if_neg hne] at h ⊢
    dsimp only at h ⊢
    by_cases hpr : 0 < (process_new_anomalies t det true s.last_processed_datetime).n_datetimes
    · rw [if_pos hpr] at h ⊢
      have hwne : get_new_data_from_sql t s.last_processed_datetime ≠ [] := by
        intro hc
        rw [hc] at hne
        exact hne rfl
      obtain ⟨r0, hr0w⟩ := List.exists_mem_of_ne_nil _ hwne
      have hr0 := mem_get_new_data.mp hr0w
      obtain ⟨M, hM⟩ := maxDt_isSome_of_mem hr0.1
      obtain ⟨⟨rs, hrs, hrsM⟩, hub⟩ := maxDt_spec.mp hM
      have hMgt : s.last_processed_datetime < M :=
        lt_of_lt_of_le hr0.2 (hub r0 hr0.1)
      have hrsw : rs ∈ get_new_data_from_sql t s.last_processed_datetime :=
        mem_get_new_data.mpr ⟨hrs, by omega⟩
      have hwmax : maxDt (get_new_data_from_sql t s.last_processed_datetime) = some M :=
        maxDt_spec.mpr ⟨⟨rs, hrsw, hrsM⟩, fun r hr => hub r (mem_get_new_data.mp hr).1⟩
      rw [hM]
      dsimp only
      unfold advanceWatermark
      rw [if_pos hMgt]
      exact hwmax
    · rw [if_neg hpr] at h
      simp at h

/-- Witness for C1 (amended): a successful cycle with an unchanged
input table advances the watermark to the window maximum, 1. -/
theorem watermark_advances_to_window_max_witness :
    (check_and_process exState exTable exTable exTable exDetector true).2 = true
    ∧ maxDt (get_new_data_from_sql exTable exState.last_processed_datetime)
        = some ((check_and_process exState exTable exTable exTable
                   exDetector true).1.last_processed_datetime) :=
  ⟨by decide, watermark_advances_to_window_max exState exTable exDetector (by decide)⟩

/-! ### C9: sanitization and selection on absent columns -/

lemma mem_colNames_of_colData {f : ResultFrame} {n : String} {d : List Val}
    (h : colData f n = some d) : n ∈ colNames f := by
  unfold colData at h
  cases hf : f.columns.find? (fun c => c.1 = n) with
  | none => rw [hf] at h; cases h
  | some c =>
    have hc := List.find?_some hf
    simp only [decide_eq_true_eq] at hc
    have hmem := List.mem_of_find?_eq_some hf
    subst hc
    exact List.mem_map_of_mem _ hmem

lemma mem_colNames_selectCols {f : ResultFrame} {n : String}
    (h : n ∈ colNames (selectCols f)) : n ∈ colNames f := by
  unfold selectCols colNames at h
  dsimp only at h
  rw [List.mem_map] at h
  obtain ⟨p, hp, hpn⟩ := h
  rw [List.mem_filterMap] at hp
  obtain ⟨c, hc, he⟩ := hp
  cases hd : colData f c with
  | none => rw [hd] at he; cases he
  | some d =>
    rw [hd] at he
    simp only [Option.map_some', Option.some_inj] at he
    subst he
    subst hpn
    exact mem_colNames_of_colData hd

lemma flagCols_names {cs ds : List (String × List Val)} (h : flagCols cs = .ok ds) :
    ds.map Prod.fst = cs.map Prod.fst := by
  induction cs generalizing ds with
  | nil =>
    simp only [flagCols, Except.ok.injEq] at h
    subst h
    rfl
  | cons c cs ih =>
    unfold flagCols at h
    cases hc : flagStepVal c.1 c.2 with
    | error e => rw [hc] at h; cases h
    | ok d1 =>
      rw [hc] at h
      cases hcs : flagCols cs with
      | error e => rw [hcs] at h; cases h
      | ok ds' =>
        rw [hcs] at h
        simp only [Except.ok.injEq] at h
        subst h
        simp [ih hcs]

lemma colNames_sanitizeNumeric (f : ResultFrame) :
    colNames (sanitizeNumeric f) = colNames f := by
  unfold colNames sanitizeNumeric
  dsimp only
  rw [List.map_map]
  rfl

/-- The detector output used for the C9 counterexample: no `is_anomaly`
column at all. -/
def exDetectorNoFlag : Detector :=
  ⟨["A"], fun _ _ => .ok ⟨[("y", [Val.num 10]), ("source_file", [Val.str "f"])]⟩⟩

/-- **C9 (counterexample).** When the detection result lacks
`is_anomaly`, sanitization and column selection do skip and omit it —
but the cycle is not error-free: after the successful write, reading
`results['is_anomaly']` for the anomaly count raises, so the cycle logs
an error and returns `(0, 0)` even though the batch was persisted. -/
theorem conditional_columns_counterexample :
    "is_anomaly" ∉ colNames (ResultFrame.mk [("y", [Val.num 10]), ("source_file", [Val.str "f"])])
    ∧ process_new_anomalies exTable exDetectorNoFlag true 0
        = ⟨0, 0, [⟨[("y", [Val.num 10]), ("source_file", [Val.str "f"])]⟩], false, true⟩ := by
  refine ⟨by decide, by decide⟩

/-- **C9 (amended).** If the detection result lacks one of
`outside_interval`, `high_residual`, `is_anomaly`, `anomaly_score` or
`prediction_error_pct`, that column's conversion/fill/clamp step is
skipped and the column is omitted from the written batch — never
created or defaulted (sanitization preserves the column-name list).
For the four columns other than `is_anomaly` the cycle treats the
absence silently; a missing `is_anomaly`, however, makes the post-write
anomaly count raise, so that cycle reports an error after persisting. -/
theorem conditional_columns_amended (f : ResultFrame) (n : String)
    (_hn : n ∈ (["outside_interval", "high_residual", "is_anomaly",
                 "anomaly_score", "prediction_error_pct"] : List String))
    (habs : n ∉ colNames f) :
    ∀ g, sanitizeFrame f = Except.ok g →
      colNames g = colNames f ∧ n ∉ colNames g ∧ n ∉ colNames (selectCols g) := by
  intro g hg
  unfold sanitizeFrame at hg
  cases hf : astIntFlags f with
  | error e => rw [hf] at hg; cases hg
  | ok g0 =>
    rw [hf] at hg
    simp only [Except.ok.injEq] at hg
    subst hg
    unfold astIntFlags at hf
    cases hfc : flagCols f.columns with
    | error e => rw [hfc] at hf; cases hf
    | ok cs0 =>
      rw [hfc] at hf
      simp only [Except.ok.injEq] at hf
      subst hf
      have hnames : colNames (sanitizeNumeric ⟨cs0⟩) = colNames f := by
        rw [colNames_sanitizeNumeric]
        exact flagCols_names hfc
      have habs' : n ∉ colNames (sanitizeNumeric ⟨cs0⟩) := by
        rw [hnames]
        exact habs
      exact ⟨hnames, habs', fun hc => habs' (mem_colNames_selectCols hc)⟩

/-- Witness for C9 (amended) at a concrete frame lacking
`anomaly_score`. -/
theorem conditional_columns_amended_witness :
    ("anomaly_score" ∈ (["outside_interval", "high_residual", "is_anomaly",
                         "anomaly_score", "prediction_error_pct"] : List String)
     ∧ "anomaly_score" ∉ colNames (ResultFrame.mk [("y", [Val.num 10])]))
    ∧ ∀ g, sanitizeFrame (ResultFrame.mk [("y", [Val.num 10])]) = Except.ok g →
        colNames g = colNames (ResultFrame.mk [("y", [Val.num 10])])
        ∧ "anomaly_score" ∉ colNames g
        ∧ "anomaly_score" ∉ colNames (selectCols g) :=
  ⟨⟨by decide, by decide⟩,
   conditional_columns_amended ⟨[("y", [Val.num 10])]⟩ "anomaly_score" (by decide) (by decide)⟩

/-! ### C10: the run loop always releases the connection it opened -/

/-- **C10.** On every termination path of the worker's run loop —
keyboard interrupt or any other exception escaping after `initialize()`
returned True (which implies the storage connection was established) —
the `finally` block disconnects the connection before `run` returns. -/
theorem run_disconnects_after_init (e : LoopEnd) :
    connEstablished InitOutcome.initOk = true
    ∧ (run InitOutcome.initOk e).connectionEstablished = true
    ∧ (run InitOutcome.initOk e).disconnected = true := by
  cases e <;> exact ⟨rfl, rfl, rfl⟩
